import Mathlib

/-!
Shallow embedding of the SmartGit change-analysis engine
(`lib/analyzer.js` together with the constants of `lib/config.js`, and the
commit-message suggester `lib/suggester.js`).

Modelling conventions:
* JavaScript strings are Lean `String`s; the JS operations `trim`, `split`,
  `slice`, `toLowerCase`, `includes` are modelled by structurally recursive
  functions over the character list of the string (the `js...` helpers
  below), so that every definition evaluates inside the kernel.
* The external version-control tool (`simple-git`) is modelled by a
  `GitOracle` record holding the responses the analyzer queries:
  `checkIsRepo`, `rev-parse HEAD` success, the porcelain status text, and
  the diff outputs.  Diff outputs are carried already in the shape produced
  by the external `parse-diff` library (a list of per-file records with
  hunks of tagged lines), since the analyzer only ever consumes the parsed
  form; concatenating two diff texts and parsing corresponds to appending
  the two parsed lists.
* Thrown JavaScript errors are modelled with `Except String`; the analyzer's
  surrounding `try`/`catch` that rewraps every error message is modelled
  explicitly in `analyzeChanges`.
-/

namespace SmartGit

/-- If `sep` is a leading segment of the second list, return the remainder. -/
def stripPrefixChars : List Char → List Char → Option (List Char)
  | [], rest => some rest
  | _ :: _, [] => none
  | a :: as, b :: bs => if a == b then stripPrefixChars as bs else none

/-- Whether `needle` occurs contiguously inside the second list. -/
def hasInfixChars (needle : List Char) : List Char → Bool
  | [] => (stripPrefixChars needle []).isSome
  | c :: rest => (stripPrefixChars needle (c :: rest)).isSome || hasInfixChars needle rest

/-- JS substring test `s.includes(sub)`. -/
def jsIncludes (s sub : String) : Bool :=
  hasInfixChars sub.toList s.toList

/-- JS `s.trim()`: strip whitespace from both ends. -/
def jsTrim (s : String) : String :=
  String.mk (((s.toList.dropWhile Char.isWhitespace).reverse.dropWhile
    Char.isWhitespace).reverse)

/-- JS `s.toLowerCase()` (ASCII, as used on file paths). -/
def jsToLower (s : String) : String :=
  String.mk (s.toList.map Char.toLower)

/-- Split a character list at every character satisfying `p`
(JS `split` with a one-character class: empty segments are kept). -/
def splitCharAux (p : Char → Bool) : List Char → List (List Char)
  | [] => [[]]
  | c :: rest =>
    if p c then [] :: splitCharAux p rest
    else
      match splitCharAux p rest with
      | [] => [[c]]
      | s :: ss => (c :: s) :: ss

/-- JS `s.split(sep)` for a one-character separator. -/
def jsSplitChar (s : String) (sep : Char) : List String :=
  (splitCharAux (fun c => c == sep) s.toList).map String.mk

/-- JS `s.split(regexOfChars)` for a one-character class (segments between
consecutive separator characters are kept as empty strings). -/
def jsSplitPred (s : String) (p : Char → Bool) : List String :=
  (splitCharAux p s.toList).map String.mk

/-- Split at the first occurrence of the (non-empty) separator `sep`,
returning the part before it and the part after it. -/
def splitFirstChars (sep : List Char) : List Char → Option (List Char × List Char)
  | [] => none
  | c :: rest =>
    match stripPrefixChars sep (c :: rest) with
    | some r => some ([], r)
    | none =>
      match splitFirstChars sep rest with
      | some (pre, post) => some (c :: pre, post)
      | none => none

/-- The first two segments of JS `s.split(' -> ')`: the text before the
first arrow and the text between the first and the second arrow (or the
rest of the string when the arrow occurs once).  When the arrow does not
occur in `s` at all the second segment is modelled as `""`. -/
def jsArrowParts (s : String) : String × String :=
  match splitFirstChars " -> ".toList s.toList with
  | none => (s, "")
  | some (pre, post) =>
    match splitFirstChars " -> ".toList post with
    | none => (String.mk pre, String.mk post)
    | some (pre2, _) => (String.mk pre, String.mk pre2)

/-- One changed line of a diff hunk, as tagged by the external `parse-diff`
library: a pure addition, a pure deletion, or a context line. -/
inductive ChangeTag where
  | add
  | del
  | normal
  deriving DecidableEq

/-- One hunk (`chunk`) of a parsed diff: its list of tagged lines. -/
structure Chunk where
  changes : List ChangeTag
  deriving DecidableEq

/-- One per-file record of a parsed unified diff, in the shape produced by
the external `parse-diff` library and consumed by `analyzer.js`:
`from`/`to` paths (absent fields are `none`), the `deleted`/`new`/`renamed`
flags, the hunks, and the file-level `additions`/`deletions` tallies. -/
structure DiffFile where
  fromPath : Option String := none
  toPath : Option String := none
  deleted : Bool := false
  isNew : Bool := false
  renamed : Bool := false
  chunks : List Chunk := []
  additions : Option Nat := none
  deletions : Option Nat := none
  deriving DecidableEq

/-- A `{ from, to }` rename entry of the parsed porcelain status. -/
structure RenamePair where
  fromPath : String
  toPath : String
  deriving DecidableEq

/-- Result shape of `parsePorcelainStatus` in `analyzer.js`. -/
structure GitStatus where
  modified : List String := []
  created : List String := []
  deleted : List String := []
  renamed : List RenamePair := []
  files : List String := []
  deriving DecidableEq

/-- Processing of one line of `git status --porcelain` output, translated
from the loop body of `parsePorcelainStatus` in `analyzer.js`: lines shorter
than 4 characters are skipped; a line containing the rename arrow records a
rename; otherwise the two status characters select the bucket, any
unrecognized line recording its path only in `files`. -/
def parseStatusLine (status : GitStatus) (line : String) : GitStatus :=
  if line.toList.length < 4 then status else
  let cs := line.toList
  let index := cs.getD 0 ' '
  let workTree := cs.getD 1 ' '
  let file := jsTrim (String.mk (cs.drop 3))
  if jsIncludes line " -> " then
    let parts := jsArrowParts file
    let oldPath := jsTrim parts.1
    let newPath := jsTrim parts.2
    { status with renamed := status.renamed ++ [⟨oldPath, newPath⟩],
                  files := status.files ++ [newPath] }
  else if index == 'M' || workTree == 'M' then
    { status with modified := status.modified ++ [file],
                  files := status.files ++ [file] }
  else if index == 'A' || (index == '?' && workTree == '?') then
    { status with created := status.created ++ [file],
                  files := status.files ++ [file] }
  else if index == 'D' || workTree == 'D' then
    { status with deleted := status.deleted ++ [file],
                  files := status.files ++ [file] }
  else if index == 'R' then
    status
  else
    { status with files := status.files ++ [file] }

/-- `parsePorcelainStatus` from `analyzer.js`: trim the whole output, split
into lines, and classify each line. -/
def parsePorcelainStatus (statusOutput : String) : GitStatus :=
  if jsTrim statusOutput == "" then {} else
  (jsSplitChar (jsTrim statusOutput) '\n').foldl parseStatusLine {}

/-- Result shape of `calculateLineStats` in `analyzer.js`. -/
structure LineStats where
  additions : Nat
  deletions : Nat
  total : Nat
  deriving DecidableEq

/-- Number of lines of a hunk tagged as pure additions. -/
def chunkAddCount (c : Chunk) : Nat :=
  (c.changes.filter (fun t => t == ChangeTag.add)).length

/-- Number of lines of a hunk tagged as pure deletions. -/
def chunkDelCount (c : Chunk) : Nat :=
  (c.changes.filter (fun t => t == ChangeTag.del)).length

/-- `calculateLineStats` from `analyzer.js`: for every file, count the
`add`/`del` lines of its hunks, and additionally add the file-level
`additions`/`deletions` fields whenever they are defined (the code guards
this only by `!== undefined`, not by the hunks being absent). -/
def calculateLineStats (parsedDiff : List DiffFile) : LineStats :=
  let r := parsedDiff.foldl
    (fun (acc : Nat × Nat) (file : DiffFile) =>
      (acc.1 + (file.chunks.map chunkAddCount).sum + file.additions.getD 0,
       acc.2 + (file.chunks.map chunkDelCount).sum + file.deletions.getD 0))
    (0, 0)
  ⟨r.1, r.2, r.1 + r.2⟩

/-- Total number of diff lines tagged as pure additions across all hunks of
all files (the quantity the specification says `lineStats.additions`
reports). -/
def tallyAddLines (parsedDiff : List DiffFile) : Nat :=
  (parsedDiff.map (fun f => (f.chunks.map chunkAddCount).sum)).sum

/-- Total number of diff lines tagged as pure deletions across all hunks of
all files. -/
def tallyDelLines (parsedDiff : List DiffFile) : Nat :=
  (parsedDiff.map (fun f => (f.chunks.map chunkDelCount).sum)).sum

/-- `CONFIG.filePatterns` from `config.js`. -/
structure FilePatterns where
  docs : List String
  test : List String
  config : List String
  style : List String

/-- The pattern table of `CONFIG.filePatterns` in `config.js`. -/
def filePatterns : FilePatterns where
  docs := [".md", ".txt", "readme", "license", "changelog"]
  test := [".test.", ".spec.", "__tests__", "test/", "tests/"]
  config := [".json", ".yml", ".yaml", ".toml", ".config.", "config/", ".env"]
  style := [".css", ".scss", ".sass", ".less", ".style."]

/-- Result shape of `categorizeFiles` in `analyzer.js`. -/
structure Categorization where
  docs : List String := []
  test : List String := []
  config : List String := []
  style : List String := []
  source : List String := []
  deriving DecidableEq

/-- `patterns.some(pattern => fileLower.includes(pattern))`. -/
def matchesAny (patterns : List String) (fileLower : String) : Bool :=
  patterns.any (fun p => jsIncludes fileLower p)

/-- Loop body of `categorizeFiles` in `analyzer.js`: lower-case the path and
push it to the first matching bucket (docs, test, config, style), defaulting
to `source`. -/
def categorizeStep (cats : Categorization) (file : String) : Categorization :=
  let fileLower := jsToLower file
  if matchesAny filePatterns.docs fileLower then
    { cats with docs := cats.docs ++ [file] }
  else if matchesAny filePatterns.test fileLower then
    { cats with test := cats.test ++ [file] }
  else if matchesAny filePatterns.config fileLower then
    { cats with config := cats.config ++ [file] }
  else if matchesAny filePatterns.style fileLower then
    { cats with style := cats.style ++ [file] }
  else
    { cats with source := cats.source ++ [file] }

/-- `categorizeFiles` from `analyzer.js`. -/
def categorizeFiles (files : List String) : Categorization :=
  files.foldl categorizeStep {}

/-- The five semantic buckets of the categorizer. -/
inductive Bucket where
  | docs
  | test
  | config
  | style
  | source
  deriving DecidableEq

/-- The bucket a single path is assigned by the priority order of
`categorizeFiles` (docs, then test, then config, then style, else source). -/
def bucketOf (file : String) : Bucket :=
  let fileLower := jsToLower file
  if matchesAny filePatterns.docs fileLower then Bucket.docs
  else if matchesAny filePatterns.test fileLower then Bucket.test
  else if matchesAny filePatterns.config fileLower then Bucket.config
  else if matchesAny filePatterns.style fileLower then Bucket.style
  else Bucket.source

/-- Result shape of `extractFileChanges`: the per-kind lists. -/
structure ChangeTypes where
  modified : List String := []
  created : List String := []
  deleted : List String := []
  renamed : List RenamePair := []
  deriving DecidableEq

/-- Return value of `extractFileChanges` in `analyzer.js`: the per-kind
lists together with `Array.from(allFiles)` (the JS `Set` is modelled as a
list in insertion order with membership-checked insertion). -/
structure FileChanges where
  changeTypes : ChangeTypes
  allFiles : List String
  deriving DecidableEq

/-- Insertion into the JS `Set` `allFiles`: keep insertion order, drop
duplicates. -/
def insertUniq (l : List String) (x : String) : List String :=
  if x ∈ l then l else l ++ [x]

/-- JS `file.to || file.from` (an absent or empty `to` falls back to
`from`; both absent gives the empty string). -/
def jsPathOr (a b : Option String) : String :=
  match a with
  | some s => if s == "" then b.getD "" else s
  | none => b.getD ""

/-- Loop body over the parsed diff in `extractFileChanges` of
`analyzer.js`: classify the record by its `deleted`/`new`/`renamed` flags
(else modified) and add the path to the `allFiles` set; a renamed record
adds its `to` path and skips the common `add`. -/
def extractDiffStep (acc : ChangeTypes × List String) (file : DiffFile) :
    ChangeTypes × List String :=
  let filePath := jsPathOr file.toPath file.fromPath
  if file.deleted then
    ({ acc.1 with deleted := acc.1.deleted ++ [filePath] }, insertUniq acc.2 filePath)
  else if file.isNew then
    ({ acc.1 with created := acc.1.created ++ [filePath] }, insertUniq acc.2 filePath)
  else if file.renamed then
    ({ acc.1 with renamed :=
        acc.1.renamed ++ [⟨file.fromPath.getD "", file.toPath.getD ""⟩] },
      insertUniq acc.2 (file.toPath.getD ""))
  else
    ({ acc.1 with modified := acc.1.modified ++ [filePath] }, insertUniq acc.2 filePath)

/-- Merge loop over `status.modified` in `extractFileChanges`: recover the
file only when the diff did not already mention it. -/
def mergeModifiedStep (acc : ChangeTypes × List String) (file : String) :
    ChangeTypes × List String :=
  if file ∈ acc.2 then acc
  else ({ acc.1 with modified := acc.1.modified ++ [file] }, insertUniq acc.2 file)

/-- Merge loop over `status.created` in `extractFileChanges`. -/
def mergeCreatedStep (acc : ChangeTypes × List String) (file : String) :
    ChangeTypes × List String :=
  if file ∈ acc.2 then acc
  else ({ acc.1 with created := acc.1.created ++ [file] }, insertUniq acc.2 file)

/-- Merge loop over `status.deleted` in `extractFileChanges`. -/
def mergeDeletedStep (acc : ChangeTypes × List String) (file : String) :
    ChangeTypes × List String :=
  if file ∈ acc.2 then acc
  else ({ acc.1 with deleted := acc.1.deleted ++ [file] }, insertUniq acc.2 file)

/-- Merge loop over `status.renamed` in `extractFileChanges`: add the pair
only when no recorded rename already targets the same `to` path. -/
def mergeRenamedStep (acc : ChangeTypes × List String) (r : RenamePair) :
    ChangeTypes × List String :=
  if (acc.1.renamed.find? (fun x => x.toPath == r.toPath)).isSome then acc
  else ({ acc.1 with renamed := acc.1.renamed ++ [r] }, insertUniq acc.2 r.toPath)

/-- `extractFileChanges` from `analyzer.js`. -/
def extractFileChanges (parsedDiff : List DiffFile) (status : GitStatus) :
    FileChanges :=
  let acc0 := parsedDiff.foldl extractDiffStep ({}, [])
  let acc1 := status.modified.foldl mergeModifiedStep acc0
  let acc2 := status.created.foldl mergeCreatedStep acc1
  let acc3 := status.deleted.foldl mergeDeletedStep acc2
  let acc4 := status.renamed.foldl mergeRenamedStep acc3
  ⟨acc4.1, acc4.2⟩

/-- The analysis modes of `analyzeChanges` (`options.mode`, default
`all`). -/
inductive Mode where
  | all
  | staged
  | unstaged
  deriving DecidableEq

/-- The `analysisScope` string assigned by the `switch (mode)` of
`analyzeChanges`. -/
def analysisScopeFor : Mode → String
  | .staged => "staged changes"
  | .unstaged => "unstaged changes"
  | .all => "all changes since last commit"

/-- Responses of the external version-control tool consumed by one
invocation of `analyzeChanges`: whether the path is a repository
(`git.checkIsRepo()`), whether `rev-parse HEAD` succeeds, the
`status --porcelain` text, and the parsed forms of
`git.diff(['--cached', 'HEAD'])`, `git.diff(['HEAD'])` and `git.diff()`. -/
structure GitOracle where
  isRepo : Bool
  hasHead : Bool
  statusOutput : String
  stagedDiff : List DiffFile
  unstagedDiff : List DiffFile
  workingDiff : List DiffFile
  deriving DecidableEq

/-- The parsed diff the `switch (mode)` of `analyzeChanges` works on:
`staged` uses the cached diff, `unstaged` the `HEAD` diff, `all` the
concatenation of both texts (which parses to the appended record lists). -/
def modeDiff (o : GitOracle) : Mode → List DiffFile
  | .staged => o.stagedDiff
  | .unstaged => o.unstagedDiff
  | .all => o.stagedDiff ++ o.unstagedDiff

/-- The `summary` block assembled by `analyzeChanges`. -/
structure Summary where
  totalFiles : Nat := 0
  modified : Nat := 0
  created : Nat := 0
  deleted : Nat := 0
  renamed : Nat := 0
  linesAdded : Nat := 0
  linesDeleted : Nat := 0
  linesChanged : Nat := 0
  deriving DecidableEq

/-- The object returned by `analyzeChanges` / `analyzeFirstCommit`.  Fields
the JS code leaves absent on some return paths (`message`, `mode`,
`isFirstCommit`, the whole analysis payload of a no-change result) are
modelled with `Option` or with the listed defaults. -/
structure AnalysisResult where
  hasChanges : Bool
  message : Option String := none
  mode : Option Mode := none
  isFirstCommit : Bool := false
  analysisScope : String := ""
  changeTypes : ChangeTypes := {}
  files : List String := []
  categorization : Categorization := {}
  lineStats : LineStats := ⟨0, 0, 0⟩
  parsedDiff : List DiffFile := []
  summary : Summary := {}
  deriving DecidableEq

/-- `analyzeFirstCommit` from `analyzer.js`: with no files in the status
listing report no changes; otherwise classify every status file as created
and compute stats from the plain working-tree diff. -/
def analyzeFirstCommit (o : GitOracle) (status : GitStatus) : AnalysisResult :=
  let allFiles := status.files
  if allFiles.length = 0 then
    { hasChanges := false,
      message := some "No changes detected in the repository",
      isFirstCommit := true,
      analysisScope := "first commit (no HEAD)" }
  else
    let categorization := categorizeFiles allFiles
    let parsedDiff := o.workingDiff
    let lineStats := calculateLineStats parsedDiff
    { hasChanges := true,
      isFirstCommit := true,
      mode := some Mode.all,
      analysisScope := "first commit (no HEAD)",
      changeTypes := { modified := [], created := allFiles, deleted := [], renamed := [] },
      files := allFiles,
      categorization := categorization,
      lineStats := lineStats,
      parsedDiff := parsedDiff,
      summary := { totalFiles := allFiles.length, modified := 0,
                   created := allFiles.length, deleted := 0, renamed := 0,
                   linesAdded := lineStats.additions,
                   linesDeleted := lineStats.deletions,
                   linesChanged := lineStats.total } }

/-- The message of the error thrown by `analyzeChanges` when
`git.checkIsRepo()` is false. -/
def notARepoMsg : String :=
  "Not a git repository. Please run this command inside a git repository."

/-- Body of the `try` block of `analyzeChanges` in `analyzer.js`:
check the repository, check `HEAD`, parse the status, pick the diff for the
mode, and either report no changes (empty parsed diff and empty trimmed
status) or assemble the full analysis. -/
def analyzeChangesRaw (o : GitOracle) (mode : Mode) : Except String AnalysisResult :=
  if !o.isRepo then .error notARepoMsg
  else
    let status := parsePorcelainStatus o.statusOutput
    if !o.hasHead then .ok (analyzeFirstCommit o status)
    else
      let parsedDiff := modeDiff o mode
      if parsedDiff.length = 0 ∧ jsTrim o.statusOutput = "" then
        .ok { hasChanges := false,
              message := some "No changes detected since the last commit",
              mode := some mode,
              analysisScope := analysisScopeFor mode }
      else
        let fileChanges := extractFileChanges parsedDiff status
        let lineStats := calculateLineStats parsedDiff
        let categorization := categorizeFiles fileChanges.allFiles
        .ok { hasChanges := true,
              mode := some mode,
              analysisScope := analysisScopeFor mode,
              changeTypes := fileChanges.changeTypes,
              files := fileChanges.allFiles,
              categorization := categorization,
              lineStats := lineStats,
              parsedDiff := parsedDiff,
              summary := { totalFiles := fileChanges.allFiles.length,
                           modified := fileChanges.changeTypes.modified.length,
                           created := fileChanges.changeTypes.created.length,
                           deleted := fileChanges.changeTypes.deleted.length,
                           renamed := fileChanges.changeTypes.renamed.length,
                           linesAdded := lineStats.additions,
                           linesDeleted := lineStats.deletions,
                           linesChanged := lineStats.total } }

/-- `analyzeChanges` from `analyzer.js`, including the surrounding
`catch` that rewraps every thrown error as
`Failed to analyze git changes: <original message>`. -/
def analyzeChanges (o : GitOracle) (mode : Mode) : Except String AnalysisResult :=
  match analyzeChangesRaw o mode with
  | .ok r => .ok r
  | .error e => .error ("Failed to analyze git changes: " ++ e)

/-- `determinePrimaryType` from `analyzer.js`: the priority-ordered rules
deriving the commit type from the categorized buckets and per-kind
counts. -/
def determinePrimaryType (categorization : Categorization)
    (changeTypes : ChangeTypes) : String :=
  if categorization.docs.length > 0 ∧ categorization.source.length = 0 ∧
      categorization.test.length = 0 then "docs"
  else if categorization.test.length > 0 ∧ categorization.source.length = 0 then
    "test"
  else if categorization.config.length > 0 ∧ categorization.source.length = 0 ∧
      categorization.test.length = 0 ∧ categorization.docs.length = 0 then "chore"
  else if categorization.style.length > 0 ∧ categorization.source.length = 0 then
    "style"
  else if changeTypes.created.length > 0 ∧ changeTypes.modified.length = 0 then
    "feat"
  else
    let allFiles :=
      jsToLower (String.intercalate " " (categorization.source ++ categorization.test))
    if jsIncludes allFiles "fix" || jsIncludes allFiles "bug" ||
        jsIncludes allFiles "patch" then "fix"
    else if jsIncludes allFiles "refactor" then "refactor"
    else if categorization.source.length > 0 then
      -- the JS code returns 'feat' on both sides of this comparison
      if changeTypes.created.length > changeTypes.modified.length then "feat"
      else "feat"
    else "chore"

/-- Inner loop of `findCommonPath` in `suggester.js`: collect the leading
path components (taken from the first path, its file name excluded) on
which every split path agrees. -/
def commonPartsAux (paths : List (List String)) : Nat → List String → List String
  | _, [] => []
  | i, part :: rest =>
    if paths.all (fun p => p[i]? == some part) then
      part :: commonPartsAux paths (i + 1) rest
    else []

/-- `findCommonPath` from `suggester.js`. -/
def findCommonPath (files : List String) : Option String :=
  match files with
  | [] => none
  | [f] =>
    let parts := (jsSplitChar f '/').dropLast
    let j := String.intercalate "/" parts
    some (if j == "" then "." else j)
  | _ =>
    let paths := files.map (fun f => jsSplitChar f '/')
    let firstPath := paths.headD []
    let commonParts := commonPartsAux paths 0 firstPath.dropLast
    if commonParts.length > 0 then some (String.intercalate "/" commonParts)
    else none

/-- `determineScope` from `suggester.js`: a single file names the scope by
its extension-less basename; otherwise use the deepest common directory,
falling back to the bucket name when one bucket holds every file. -/
def determineScope (files : List String) (categorization : Categorization) :
    Option String :=
  if files.length = 1 then
    let fileName := (jsSplitChar (files.headD "") '/').getLastD ""
    let nameWithoutExt := (jsSplitChar fileName '.').headD ""
    some (jsToLower nameWithoutExt)
  else
    let fromCommon : Option String :=
      match findCommonPath files with
      | some commonPath =>
        if commonPath != "" && commonPath != "." then
          let parts := (jsSplitChar commonPath '/').filter (fun p => p != "")
          if parts.length > 0 then some (parts.getLastD "") else none
        else none
      | none => none
    match fromCommon with
    | some s => some s
    | none =>
      if categorization.docs.length = files.length then some "docs"
      else if categorization.test.length = files.length then some "tests"
      else if categorization.config.length = files.length then some "config"
      else none

/-- JS `name.replace(/([A-Z])/g, ' $1')`: a space inserted before every
upper-case letter. -/
def splitCamel (s : String) : String :=
  String.mk ((s.toList.map (fun c => if c.isUpper then [' ', c] else [c])).flatten)

/-- The separator class of JS `split(/[-_\s]+/)` in `suggester.js`. -/
def isSepChar (c : Char) : Bool :=
  c == '-' || c == '_' || c.isWhitespace

/-- `inferFeatureFromFiles` from `suggester.js`: tokenize the
extension-less basenames, and return the first token of length above two
whose occurrence count exceeds one and every earlier token's count. -/
def inferFeatureFromFiles (files : List String) : Option String :=
  if files.length = 0 then none
  else
    let fileNames := files.map (fun f =>
      (jsSplitChar ((jsSplitChar f '/').getLastD "") '.').headD "")
    let words := (fileNames.map (fun name =>
      ((jsSplitPred (splitCamel name) isSepChar).filter
        (fun w => w.length > 2)).map jsToLower)).flatten
    let entries := words.foldl
      (fun (acc : List String) w => if w ∈ acc then acc else acc ++ [w]) []
    let best := entries.foldl
      (fun (acc : Nat × Option String) w =>
        let c := words.count w
        if c > acc.1 ∧ c > 1 then (c, some w) else acc)
      (0, none)
    best.2

/-- The multi-file portion of `generateDescription` in `suggester.js`
(everything after the single-file special case). -/
def generalDescription (categorization : Categorization)
    (changeTypes : ChangeTypes) (files : List String) : String :=
  if categorization.docs.length > 0 ∧ categorization.source.length = 0 ∧
      categorization.test.length = 0 then
    "update documentation"
  else if categorization.test.length > 0 ∧ categorization.source.length = 0 then
    if changeTypes.created.length > 0 then "add tests" else "update tests"
  else if categorization.config.length > 0 ∧ categorization.source.length = 0 ∧
      categorization.test.length = 0 then
    "update configuration"
  else if categorization.style.length > 0 ∧ categorization.source.length = 0 then
    "update styles"
  else
    let fromSource : Option String :=
      if categorization.source.length > 0 then
        if changeTypes.created.length > changeTypes.modified.length then
          some (match inferFeatureFromFiles changeTypes.created with
                | some f => "add " ++ f
                | none => "add new features")
        else if changeTypes.modified.length > 0 then
          some (match inferFeatureFromFiles changeTypes.modified with
                | some f => "update " ++ f
                | none => "update implementation")
        else if changeTypes.deleted.length > 0 then
          some "remove deprecated code"
        else none
      else none
    match fromSource with
    | some s => s
    | none =>
      if files.length ≤ 3 then "update project files"
      else "update multiple components"

/-- `generateDescription` from `suggester.js`: the single-file special case
(keyed by the file's kind, falling through to the general logic when the
file is in no per-kind list) followed by the general logic. -/
def generateDescription (categorization : Categorization)
    (changeTypes : ChangeTypes) (files : List String) : String :=
  if files.length = 1 then
    let file := files.headD ""
    let fileName := (jsSplitChar file '/').getLastD ""
    if file ∈ changeTypes.created then "add " ++ fileName
    else if file ∈ changeTypes.deleted then "remove " ++ fileName
    else if file ∈ changeTypes.modified then "update " ++ fileName
    else generalDescription categorization changeTypes files
  else generalDescription categorization changeTypes files

/-- `generateCommitMessage` from `suggester.js`: `null` when the analysis
has no changes, otherwise `type[(scope)]: description`. -/
def generateCommitMessage (analysis : AnalysisResult) : Option String :=
  if !analysis.hasChanges then none
  else
    let commitType := determinePrimaryType analysis.categorization analysis.changeTypes
    let scope := determineScope analysis.files analysis.categorization
    let description :=
      generateDescription analysis.categorization analysis.changeTypes analysis.files
    some (commitType ++
      (match scope with
       | some s => "(" ++ s ++ ")"
       | none => "") ++ ": " ++ description)

/-- The `hasChanges` field of a non-failing analysis. -/
def resultHasChanges (r : Except String AnalysisResult) : Option Bool :=
  r.toOption.map (fun a => a.hasChanges)

/-- The `message` field of a non-failing analysis. -/
def resultMessage (r : Except String AnalysisResult) : Option (Option String) :=
  r.toOption.map (fun a => a.message)

/-- The `changeTypes.modified` list of a non-failing analysis. -/
def resultModifiedList (r : Except String AnalysisResult) : Option (List String) :=
  r.toOption.map (fun a => a.changeTypes.modified)

/-- The `files` list of a non-failing analysis. -/
def resultFiles (r : Except String AnalysisResult) : Option (List String) :=
  r.toOption.map (fun a => a.files)

/-- A parsed-diff record for `a.js` with one added line, carrying the
file-level tallies the external diff parser always attaches
(`additions = 1`, `deletions = 0`, matching its single `add` line). -/
def modifiedDiffFile : DiffFile :=
  { fromPath := some "a.js", toPath := some "a.js",
    chunks := [⟨[ChangeTag.add]⟩], additions := some 1, deletions := some 0 }

/-- Oracle of a repository with a `HEAD`, an empty staged diff, and one
unstaged modification (`a.js`) reported by the status listing and by the
working-tree diff. -/
def stagedEmptyOracle : GitOracle :=
  { isRepo := true, hasHead := true, statusOutput := " M a.js",
    stagedDiff := [], unstagedDiff := [modifiedDiffFile], workingDiff := [] }

/-- Oracle of a repository with a `HEAD` where `a.js` is modified both in
the index and in the working tree, so both diffs contain a record for it. -/
def bothDiffsOracle : GitOracle :=
  { isRepo := true, hasHead := true, statusOutput := "MM a.js",
    stagedDiff := [modifiedDiffFile], unstagedDiff := [modifiedDiffFile],
    workingDiff := [] }

/-- Oracle of a clean repository with a `HEAD`: empty status, empty
diffs. -/
def cleanOracle : GitOracle :=
  { isRepo := true, hasHead := true, statusOutput := "",
    stagedDiff := [], unstagedDiff := [], workingDiff := [] }

/-- Oracle of a path that is not a git repository. -/
def noRepoOracle : GitOracle :=
  { isRepo := false, hasHead := false, statusOutput := "",
    stagedDiff := [], unstagedDiff := [], workingDiff := [] }

/-- Oracle of a freshly initialized repository: no `HEAD`, one staged file
and one untracked file in the status listing. -/
def firstCommitOracle : GitOracle :=
  { isRepo := true, hasHead := false, statusOutput := "A  a.js\n?? b.md",
    stagedDiff := [], unstagedDiff := [], workingDiff := [] }

/-- Membership in the `toOption` of `analyzeChanges` is success of the
`try`-block body with that result (the `catch` only rewraps errors). -/
theorem mem_toOption_analyzeChanges {o : GitOracle} {mode : Mode}
    {r : AnalysisResult} :
    r ∈ (analyzeChanges o mode).toOption ↔ analyzeChangesRaw o mode = .ok r := by
  unfold analyzeChanges
  cases h : analyzeChangesRaw o mode <;> simp [Except.toOption]

/-- `categorizeStep` appends the file to exactly the bucket `bucketOf`
assigns it. -/
theorem categorizeStep_characterization (cats : Categorization) (file : String) :
    categorizeStep cats file =
      { docs := cats.docs ++ if bucketOf file == Bucket.docs then [file] else [],
        test := cats.test ++ if bucketOf file == Bucket.test then [file] else [],
        config := cats.config ++ if bucketOf file == Bucket.config then [file] else [],
        style := cats.style ++ if bucketOf file == Bucket.style then [file] else [],
        source := cats.source ++ if bucketOf file == Bucket.source then [file] else [] } := by
  simp only [categorizeStep, bucketOf]
  by_cases h1 : matchesAny filePatterns.docs (jsToLower file) = true
  · simp [h1]
  · by_cases h2 : matchesAny filePatterns.test (jsToLower file) = true
    · simp [h1, h2]
    · by_cases h3 : matchesAny filePatterns.config (jsToLower file) = true
      · simp [h1, h2, h3]
      · by_cases h4 : matchesAny filePatterns.style (jsToLower file) = true
        · simp [h1, h2, h3, h4]
        · simp [h1, h2, h3, h4]

/-- The fold underlying `categorizeFiles` filters each bucket by
`bucketOf`. -/
theorem categorizeFiles_foldl_eq (files : List String) (cats : Categorization) :
    files.foldl categorizeStep cats =
      { docs := cats.docs ++ files.filter (fun f => bucketOf f == Bucket.docs),
        test := cats.test ++ files.filter (fun f => bucketOf f == Bucket.test),
        config := cats.config ++ files.filter (fun f => bucketOf f == Bucket.config),
        style := cats.style ++ files.filter (fun f => bucketOf f == Bucket.style),
        source := cats.source ++ files.filter (fun f => bucketOf f == Bucket.source) } := by
  induction files generalizing cats with
  | nil => cases cats; simp
  | cons f rest ih =>
    rw [List.foldl_cons, ih, categorizeStep_characterization]
    rcases hb : bucketOf f <;>
      simp [List.filter_cons, hb, List.append_assoc]

/-- `categorizeFiles` assigns each bucket the files `bucketOf` maps to
it, in input order. -/
theorem categorizeFiles_eq_filter (files : List String) :
    categorizeFiles files =
      { docs := files.filter (fun f => bucketOf f == Bucket.docs),
        test := files.filter (fun f => bucketOf f == Bucket.test),
        config := files.filter (fun f => bucketOf f == Bucket.config),
        style := files.filter (fun f => bucketOf f == Bucket.style),
        source := files.filter (fun f => bucketOf f == Bucket.source) } := by
  unfold categorizeFiles
  rw [categorizeFiles_foldl_eq]
  rfl

/-- `insertUniq` preserves distinctness of the `allFiles` set. -/
theorem insertUniq_nodup (l : List String) (x : String) (h : l.Nodup) :
    (insertUniq l x).Nodup := by
  unfold insertUniq
  split
  · exact h
  · rename_i hx
    simp [List.nodup_append, h, hx]

/-- A fold whose step keeps the `allFiles` component duplicate-free keeps
it duplicate-free. -/
theorem foldl_snd_nodup {α : Type}
    {step : ChangeTypes × List String → α → ChangeTypes × List String}
    (hstep : ∀ acc a, acc.2.Nodup → (step acc a).2.Nodup) :
    ∀ (l : List α) (acc : ChangeTypes × List String), acc.2.Nodup →
      (l.foldl step acc).2.Nodup := by
  intro l
  induction l with
  | nil => intro acc h; simpa using h
  | cons a rest ih => intro acc h; exact ih _ (hstep _ _ h)

/-- The diff loop of `extractFileChanges` keeps `allFiles`
duplicate-free. -/
theorem extractDiffStep_preserves_nodup (acc : ChangeTypes × List String)
    (file : DiffFile) (h : acc.2.Nodup) : (extractDiffStep acc file).2.Nodup := by
  simp only [extractDiffStep]
  repeat' split
  all_goals exact insertUniq_nodup _ _ h

/-- The `status.modified` merge loop keeps `allFiles` duplicate-free. -/
theorem mergeModifiedStep_preserves_nodup (acc : ChangeTypes × List String)
    (file : String) (h : acc.2.Nodup) : (mergeModifiedStep acc file).2.Nodup := by
  simp only [mergeModifiedStep]
  split
  · exact h
  · exact insertUniq_nodup _ _ h

/-- The `status.created` merge loop keeps `allFiles` duplicate-free. -/
theorem mergeCreatedStep_preserves_nodup (acc : ChangeTypes × List String)
    (file : String) (h : acc.2.Nodup) : (mergeCreatedStep acc file).2.Nodup := by
  simp only [mergeCreatedStep]
  split
  · exact h
  · exact insertUniq_nodup _ _ h

/-- The `status.deleted` merge loop keeps `allFiles` duplicate-free. -/
theorem mergeDeletedStep_preserves_nodup (acc : ChangeTypes × List String)
    (file : String) (h : acc.2.Nodup) : (mergeDeletedStep acc file).2.Nodup := by
  simp only [mergeDeletedStep]
  split
  · exact h
  · exact insertUniq_nodup _ _ h

/-- The `status.renamed` merge loop keeps `allFiles` duplicate-free. -/
theorem mergeRenamedStep_preserves_nodup (acc : ChangeTypes × List String)
    (r : RenamePair) (h : acc.2.Nodup) : (mergeRenamedStep acc r).2.Nodup := by
  simp only [mergeRenamedStep]
  split
  · exact h
  · exact insertUniq_nodup _ _ h

/-- The `allFiles` list assembled by `extractFileChanges` never repeats a
path (it is built through the JS `Set`). -/
theorem extractFileChanges_allFiles_nodup (parsedDiff : List DiffFile)
    (status : GitStatus) : (extractFileChanges parsedDiff status).allFiles.Nodup := by
  unfold extractFileChanges
  exact foldl_snd_nodup mergeRenamedStep_preserves_nodup _ _
    (foldl_snd_nodup mergeDeletedStep_preserves_nodup _ _
      (foldl_snd_nodup mergeCreatedStep_preserves_nodup _ _
        (foldl_snd_nodup mergeModifiedStep_preserves_nodup _ _
          (foldl_snd_nodup extractDiffStep_preserves_nodup _ _ (by simp)))))

/-- C1: the claim states that in mode `staged`, with an empty staged diff
but unstaged changes present in the status listing, the result has
`hasChanges = false`.  Evaluating `analyzeChanges` at such an input shows
the code returns `hasChanges = true` instead: the no-change branch fires
only when the status listing is empty as well, so the status-derived
unstaged files flow into a `hasChanges = true` result even in `staged`
mode. -/
theorem staged_mode_nothing_staged_reports_changes :
    resultHasChanges (analyzeChanges stagedEmptyOracle Mode.staged) = some true ∧
    modeDiff stagedEmptyOracle Mode.staged = [] ∧
    jsTrim stagedEmptyOracle.statusOutput ≠ "" := by
  refine ⟨rfl, rfl, ?_⟩
  decide

/-- C2: the claim states `lineStats` counts exactly the lines tagged as
pure additions/deletions.  Evaluating `calculateLineStats` on a one-file
diff with a single added line (and the file-level tallies `additions = 1`,
`deletions = 0` that the diff parser attaches) yields `additions = 2`: the
hunk scan and the unconditional file-level "fallback" are both added, so
the reported stats are double the tagged-line counts. -/
theorem lineStats_double_counts :
    calculateLineStats [modifiedDiffFile] = ⟨2, 0, 2⟩ ∧
    tallyAddLines [modifiedDiffFile] = 1 ∧
    tallyDelLines [modifiedDiffFile] = 0 :=
  ⟨rfl, rfl, rfl⟩

/-- C3 counterexample: a path modified in both the staged and the unstaged
diff appears twice in `changeTypes.modified` (the per-kind lists are pushed
per diff record; only the `files` set is deduplicated), refuting "never as
two separate records or duplicate entries in the per-kind change lists". -/
theorem all_mode_duplicate_in_modified_list :
    resultModifiedList (analyzeChanges bothDiffsOracle Mode.all) =
      some ["a.js", "a.js"] ∧
    resultFiles (analyzeChanges bothDiffsOracle Mode.all) = some ["a.js"] :=
  ⟨rfl, rfl⟩

/-- C3 (amended): in mode `all` on a repository with a `HEAD`, the
aggregated `files` list contains each path exactly once (the `allFiles` set
deduplicates by path), even when the path is touched in both diffs; the
per-kind change lists, however, may list such a path once per diff. -/
theorem all_mode_files_list_no_duplicates (o : GitOracle)
    (h1 : o.isRepo = true) (h2 : o.hasHead = true) :
    ∀ r ∈ (analyzeChanges o Mode.all).toOption, r.files.Nodup := by
  intro r hr
  rw [mem_toOption_analyzeChanges] at hr
  simp only [analyzeChangesRaw, h1, h2, Bool.not_true, Bool.false_eq_true,
    if_false] at hr
  split at hr
  · rw [Except.ok.injEq] at hr
    subst hr
    simp
  · rw [Except.ok.injEq] at hr
    subst hr
    exact extractFileChanges_allFiles_nodup _ _

/-- C3 witness: the amended statement applied to the oracle where `a.js` is
modified in both diffs. -/
theorem all_mode_files_list_no_duplicates_witness :
    bothDiffsOracle.isRepo = true ∧ bothDiffsOracle.hasHead = true ∧
    ∀ r ∈ (analyzeChanges bothDiffsOracle Mode.all).toOption, r.files.Nodup :=
  ⟨rfl, rfl, all_mode_files_list_no_duplicates bothDiffsOracle rfl rfl⟩

/-- C4: when `HEAD` resolution fails and the parsed status listing is
non-empty, the analysis reports `isFirstCommit = true`, `hasChanges = true`,
classifies every path of the status listing as created, and leaves the
modified, deleted and renamed lists empty — for every mode. -/
theorem first_commit_every_file_created (o : GitOracle) (mode : Mode)
    (h1 : o.isRepo = true) (h2 : o.hasHead = false)
    (h3 : (parsePorcelainStatus o.statusOutput).files ≠ []) :
    ∀ r ∈ (analyzeChanges o mode).toOption,
      r.isFirstCommit = true ∧ r.hasChanges = true ∧
      r.changeTypes.created = (parsePorcelainStatus o.statusOutput).files ∧
      r.changeTypes.modified = [] ∧ r.changeTypes.deleted = [] ∧
      r.changeTypes.renamed = [] := by
  intro r hr
  rw [mem_toOption_analyzeChanges] at hr
  simp only [analyzeChangesRaw, h1, h2, Bool.not_true, Bool.not_false,
    Bool.false_eq_true, if_false, if_true] at hr
  rw [Except.ok.injEq] at hr
  subst hr
  unfold analyzeFirstCommit
  rw [if_neg (by simpa [List.length_eq_zero] using h3)]
  exact ⟨rfl, rfl, rfl, rfl, rfl, rfl⟩

/-- C4 witness: a fresh repository with one staged and one untracked file. -/
theorem first_commit_every_file_created_witness :
    firstCommitOracle.isRepo = true ∧ firstCommitOracle.hasHead = false ∧
    (parsePorcelainStatus firstCommitOracle.statusOutput).files ≠ [] ∧
    ∀ r ∈ (analyzeChanges firstCommitOracle Mode.all).toOption,
      r.isFirstCommit = true ∧ r.hasChanges = true ∧
      r.changeTypes.created = (parsePorcelainStatus firstCommitOracle.statusOutput).files ∧
      r.changeTypes.modified = [] ∧ r.changeTypes.deleted = [] ∧
      r.changeTypes.renamed = [] :=
  ⟨rfl, rfl, by decide,
   first_commit_every_file_created firstCommitOracle Mode.all rfl rfl (by decide)⟩

/-- C5: every path of the input list lands in exactly one of the five
buckets of `categorizeFiles` (the membership indicators over the five
buckets sum to one). -/
theorem every_file_in_exactly_one_bucket (files : List String) (f : String)
    (h : f ∈ files) :
    ((if f ∈ (categorizeFiles files).docs then 1 else 0) +
     (if f ∈ (categorizeFiles files).test then 1 else 0) +
     (if f ∈ (categorizeFiles files).config then 1 else 0) +
     (if f ∈ (categorizeFiles files).style then 1 else 0) +
     (if f ∈ (categorizeFiles files).source then 1 else 0) : Nat) = 1 := by
  simp only [categorizeFiles_eq_filter, List.mem_filter]
  rcases hb : bucketOf f <;> simp [h, hb]

/-- C5 witness: the single documentation file `a.md`. -/
theorem every_file_in_exactly_one_bucket_witness :
    ("a.md" ∈ ["a.md"]) ∧
    ((if "a.md" ∈ (categorizeFiles ["a.md"]).docs then 1 else 0) +
     (if "a.md" ∈ (categorizeFiles ["a.md"]).test then 1 else 0) +
     (if "a.md" ∈ (categorizeFiles ["a.md"]).config then 1 else 0) +
     (if "a.md" ∈ (categorizeFiles ["a.md"]).style then 1 else 0) +
     (if "a.md" ∈ (categorizeFiles ["a.md"]).source then 1 else 0) : Nat) = 1 :=
  ⟨by simp, every_file_in_exactly_one_bucket ["a.md"] "a.md" (by simp)⟩

/-- C6: the claim (and the code's own comment "Other changes (treated as
modified)") says a non-empty unrecognized status line puts its path in the
modified list.  Evaluating `parsePorcelainStatus` on the unmerged-conflict
line `UU a.js` — which matches no recognized pattern — shows the path is
recorded only in `files`, while the modified list stays empty. -/
theorem unrecognized_status_line_not_in_modified :
    parsePorcelainStatus "UU a.js" =
      { modified := [], created := [], deleted := [], renamed := [],
        files := ["a.js"] } :=
  rfl

/-- C7 counterexample: with everything empty the no-change `message` is the
same fixed string for mode `staged` and mode `unstaged`, so the result does
not carry a mode-specific explanatory message (the claim's example message
naming staged changes never occurs). -/
theorem no_change_message_not_mode_specific :
    resultMessage (analyzeChanges cleanOracle Mode.staged) =
      some (some "No changes detected since the last commit") ∧
    resultMessage (analyzeChanges cleanOracle Mode.staged) =
      resultMessage (analyzeChanges cleanOracle Mode.unstaged) :=
  ⟨rfl, rfl⟩

/-- C7 (amended): with a `HEAD`, an empty diff for the mode and an empty
status listing, the result has `hasChanges = false` and carries the fixed
message "No changes detected since the last commit"; the mode-specific text
lives only in the `analysisScope` field. -/
theorem no_change_result_fixed_message (o : GitOracle) (mode : Mode)
    (h1 : o.isRepo = true) (h2 : o.hasHead = true)
    (h3 : modeDiff o mode = []) (h4 : jsTrim o.statusOutput = "") :
    analyzeChanges o mode =
      .ok { hasChanges := false,
            message := some "No changes detected since the last commit",
            mode := some mode,
            analysisScope := analysisScopeFor mode } := by
  simp [analyzeChanges, analyzeChangesRaw, h1, h2, h3, h4]

/-- C7 witness: the clean repository in mode `staged`. -/
theorem no_change_result_fixed_message_witness :
    cleanOracle.isRepo = true ∧ cleanOracle.hasHead = true ∧
    modeDiff cleanOracle Mode.staged = [] ∧
    jsTrim cleanOracle.statusOutput = "" ∧
    analyzeChanges cleanOracle Mode.staged =
      .ok { hasChanges := false,
            message := some "No changes detected since the last commit",
            mode := some Mode.staged,
            analysisScope := analysisScopeFor Mode.staged } :=
  ⟨rfl, rfl, rfl, rfl,
   no_change_result_fixed_message cleanOracle Mode.staged rfl rfl rfl rfl⟩

/-- C8 counterexample: on a non-repository the call fails, but the error is
the wrapped message `Failed to analyze git changes: Not a git repository.
...`, not the verbatim inner message — the `catch` rewraps it, refuting
"surfaced verbatim (unwrapped)". -/
theorem not_repo_error_is_wrapped :
    analyzeChanges noRepoOracle Mode.all =
      .error ("Failed to analyze git changes: " ++ notARepoMsg) ∧
    analyzeChanges noRepoOracle Mode.all ≠ .error notARepoMsg := by
  refine ⟨rfl, ?_⟩
  intro hcontra
  rw [(rfl : analyzeChanges noRepoOracle Mode.all =
      .error ("Failed to analyze git changes: " ++ notARepoMsg))] at hcontra
  injection hcontra with hmsg
  exact absurd hmsg (by decide)

/-- C8 (amended): on a path that is not a repository, `analyzeChanges`
fails before consulting any other oracle response — the result is the same
fixed error for every mode and every value of the remaining responses —
and the surfaced error is the not-a-repository message wrapped with the
`Failed to analyze git changes: ` prefix. -/
theorem not_repo_fails_before_other_queries (o : GitOracle) (mode : Mode)
    (h : o.isRepo = false) :
    analyzeChanges o mode =
      .error ("Failed to analyze git changes: " ++ notARepoMsg) := by
  simp [analyzeChanges, analyzeChangesRaw, h]

/-- C8 witness: the non-repository oracle in mode `all`. -/
theorem not_repo_fails_before_other_queries_witness :
    noRepoOracle.isRepo = false ∧
    analyzeChanges noRepoOracle Mode.all =
      .error ("Failed to analyze git changes: " ++ notARepoMsg) :=
  ⟨rfl, not_repo_fails_before_other_queries noRepoOracle Mode.all rfl⟩

/-- C9: the analysis is a deterministic function of the tool's responses:
two invocations with the same mode and field-wise equal oracle responses
produce equal `AnalysisResult` values (the analyzer consults no state
besides the oracle). -/
theorem analyze_deterministic (mode : Mode) (o1 o2 : GitOracle)
    (h1 : o1.isRepo = o2.isRepo) (h2 : o1.hasHead = o2.hasHead)
    (h3 : o1.statusOutput = o2.statusOutput)
    (h4 : o1.stagedDiff = o2.stagedDiff)
    (h5 : o1.unstagedDiff = o2.unstagedDiff)
    (h6 : o1.workingDiff = o2.workingDiff) :
    analyzeChanges o1 mode = analyzeChanges o2 mode := by
  have h : o1 = o2 := by
    cases o1
    cases o2
    simp_all
  rw [h]

/-- C9 witness: determinism applied at the oracle with an unstaged
modification. -/
theorem analyze_deterministic_witness :
    stagedEmptyOracle.isRepo = stagedEmptyOracle.isRepo ∧
    stagedEmptyOracle.hasHead = stagedEmptyOracle.hasHead ∧
    stagedEmptyOracle.statusOutput = stagedEmptyOracle.statusOutput ∧
    stagedEmptyOracle.stagedDiff = stagedEmptyOracle.stagedDiff ∧
    stagedEmptyOracle.unstagedDiff = stagedEmptyOracle.unstagedDiff ∧
    stagedEmptyOracle.workingDiff = stagedEmptyOracle.workingDiff ∧
    analyzeChanges stagedEmptyOracle Mode.all =
      analyzeChanges stagedEmptyOracle Mode.all :=
  ⟨rfl, rfl, rfl, rfl, rfl, rfl,
   analyze_deterministic Mode.all stagedEmptyOracle stagedEmptyOracle
     rfl rfl rfl rfl rfl rfl⟩

/-- C10: `generateCommitMessage` returns a string exactly when the analysis
has changes: the result is `some` if and only if `hasChanges = true`, and
`none` (JS `null`) if and only if `hasChanges = false`. -/
theorem commit_message_iff_has_changes (analysis : AnalysisResult) :
    (generateCommitMessage analysis).isSome = analysis.hasChanges := by
  unfold generateCommitMessage
  cases h : analysis.hasChanges <;> simp [h]

end SmartGit

